import Mathlib

/-!
Verification of the QueryBot SQL generation / validation / security pipeline.

Strings are modelled as `List Char` (`Str`).  Python's ASCII case folding,
`str.strip()`, `str.replace`, the `in` substring test and `re.sub` with
`\b`-bounded case-insensitive patterns are embedded as executable functions.
External collaborators (the SQLite datastore, the LLM completion backend and
the answer summarizer) are modelled as oracle functions passed in as
arguments, never inspected beyond their input/output behaviour.
-/

/-- Strings as lists of characters. -/
abbrev Str := List Char

/-- Python `str.lower()` restricted to its ASCII behaviour (the SQL texts and
keyword tables handled by the pipeline are ASCII).  `Char.toLower` maps
`A`-`Z` to `a`-`z` and leaves everything else unchanged, exactly like CPython
on ASCII input. -/
def lowerS (s : Str) : Str := s.map Char.toLower

/-- Python `str.upper()` on ASCII. -/
def upperS (s : Str) : Str := s.map Char.toUpper

/-- The six ASCII whitespace characters stripped by Python `str.strip()` and
matched by the regex class `\s`. -/
def isPySpace (c : Char) : Bool :=
  c.toNat == 32 || c.toNat == 9 || c.toNat == 10 || c.toNat == 13 ||
    c.toNat == 11 || c.toNat == 12

/-- A regex word character (`\w`) in its ASCII reading: letters, digits and
underscore. -/
def isWordChar (c : Char) : Bool :=
  (97 ≤ c.toNat && c.toNat ≤ 122) || (65 ≤ c.toNat && c.toNat ≤ 90) ||
    (48 ≤ c.toNat && c.toNat ≤ 57) || (c.toNat == 95)

/-- Lower-case ASCII letter `a`-`z`. -/
def isLowerAZ (c : Char) : Bool := 97 ≤ c.toNat && c.toNat ≤ 122

/-- Python `str.strip()` (both ends, default whitespace). -/
def pyStrip (s : Str) : Str :=
  ((s.dropWhile isPySpace).reverse.dropWhile isPySpace).reverse

/-- Python `str.strip(ch)` for a single strip character. -/
def stripChar (c0 : Char) (s : Str) : Str :=
  ((s.dropWhile (· == c0)).reverse.dropWhile (· == c0)).reverse

/-- Model: `startsB pat s` is Python `s.startswith(pat)`. -/
def startsB : Str → Str → Bool
  | [], _ => true
  | _ :: _, [] => false
  | p :: ps, c :: cs => p == c && startsB ps cs

/-- Model: `containsB pat s` is Python `pat in s` (plain substring test). -/
def containsB (pat : Str) : Str → Bool
  | [] => pat.isEmpty
  | c :: rest => startsB pat (c :: rest) || containsB pat rest

theorem startsB_iff (p s : Str) : startsB p s = true ↔ ∃ t, p ++ t = s := by
  induction p generalizing s with
  | nil => simp [startsB]
  | cons a ps ih =>
    cases s with
    | nil => simp [startsB]
    | cons c cs =>
      simp only [startsB, Bool.and_eq_true, beq_iff_eq, ih, List.cons_append,
        List.cons.injEq]
      constructor
      · rintro ⟨rfl, t, rfl⟩; exact ⟨t, rfl, rfl⟩
      · rintro ⟨t, rfl, rfl⟩; exact ⟨rfl, t, rfl⟩

theorem containsB_iff (p s : Str) :
    containsB p s = true ↔ ∃ a b, a ++ p ++ b = s := by
  induction s with
  | nil =>
    simp only [containsB, List.isEmpty_iff]
    constructor
    · rintro rfl; exact ⟨[], [], rfl⟩
    · rintro ⟨a, b, h⟩
      rcases List.append_eq_nil.mp h with ⟨h1, h2⟩
      exact (List.append_eq_nil.mp h1).2
  | cons c rest ih =>
    simp only [containsB, Bool.or_eq_true, startsB_iff, ih]
    constructor
    · rintro (⟨t, ht⟩ | ⟨a, b, rfl⟩)
      · exact ⟨[], t, by simpa using ht⟩
      · exact ⟨c :: a, b, rfl⟩
    · rintro ⟨a, b, h⟩
      cases a with
      | nil => exact Or.inl ⟨b, by simpa using h⟩
      | cons a0 as =>
        rcases h with h
        simp only [List.cons_append, List.cons.injEq] at h
        exact Or.inr ⟨as, b, h.2⟩

theorem containsB_of_startsB {p s : Str} (h : startsB p s = true) :
    containsB p s = true := by
  rcases (startsB_iff p s).mp h with ⟨t, rfl⟩
  exact (containsB_iff _ _).mpr ⟨[], t, rfl⟩

theorem containsB_append_left {p t : Str} (r : Str)
    (h : containsB p t = true) : containsB p (r ++ t) = true := by
  rcases (containsB_iff p t).mp h with ⟨a, b, rfl⟩
  exact (containsB_iff _ _).mpr ⟨r ++ a, b, by simp⟩

theorem containsB_reverse {p s : Str} (h : containsB p s = true) :
    containsB p.reverse s.reverse = true := by
  rcases (containsB_iff p s).mp h with ⟨a, b, rfl⟩
  exact (containsB_iff _ _).mpr ⟨b.reverse, a.reverse, by simp⟩

theorem lowerS_append (a b : Str) : lowerS (a ++ b) = lowerS a ++ lowerS b :=
  List.map_append _ a b

theorem lowerS_reverse (s : Str) : lowerS s.reverse = (lowerS s).reverse :=
  List.map_reverse _ s

/-- An ASCII character whose lower-casing is a lower-case letter is itself a
letter, hence a word character. -/
theorem isWordChar_of_toLower {x k : Char} (hk : isLowerAZ k = true)
    (hx : x.toLower = k) : isWordChar x = true := by
  unfold Char.toLower at hx
  simp only [isLowerAZ, Bool.and_eq_true, decide_eq_true_eq] at hk
  by_cases h : x.toNat ≥ 65 ∧ x.toNat ≤ 90
  · simp only [isWordChar, Bool.or_eq_true, Bool.and_eq_true, decide_eq_true_eq,
      beq_iff_eq]
    omega
  · rw [if_neg h] at hx
    subst hx
    simp only [isWordChar, Bool.or_eq_true, Bool.and_eq_true, decide_eq_true_eq,
      beq_iff_eq]
    omega

/-- Whitespace characters are unaffected by ASCII lower-casing. -/
theorem toLower_of_isPySpace {c : Char} (h : isPySpace c = true) :
    c.toLower = c := by
  simp only [isPySpace, Bool.or_eq_true, beq_iff_eq] at h
  unfold Char.toLower
  rw [if_neg]
  omega

/-- Lower-case letters are not whitespace. -/
theorem not_isPySpace_of_isLowerAZ {c : Char} (h : isLowerAZ c = true) :
    isPySpace c = false := by
  simp only [isLowerAZ, Bool.and_eq_true, decide_eq_true_eq] at h
  apply Bool.eq_false_iff.mpr
  intro hc
  simp only [isPySpace, Bool.or_eq_true, beq_iff_eq] at hc
  omega

/-- Case-insensitive prefix test (how `re.IGNORECASE` compares a pattern
against the scanned text, for ASCII). -/
def startsCI : Str → Str → Bool
  | [], _ => true
  | _ :: _, [] => false
  | p :: ps, c :: cs => (p.toLower == c.toLower) && startsCI ps cs

theorem startsCI_eq (p s : Str) :
    startsCI p s = startsB (lowerS p) (lowerS s) := by
  induction p generalizing s with
  | nil => simp [startsCI, lowerS, startsB]
  | cons a ps ih =>
    cases s with
    | nil => simp [startsCI, lowerS, startsB]
    | cons c cs => simp [startsCI, lowerS, startsB, ih]

/-- The `\b` condition *after* a candidate match: end of string, or a
non-word character. -/
def boundaryOk : Str → Bool
  | [] => true
  | d :: _ => !isWordChar d

/-- One pass of `re.sub(r"\b<pat>\b", repl, s, flags=re.IGNORECASE)`
(for a pattern that is a plain word, as all patterns in the repository are).
The scan walks the string left to right; `prev` records whether the previous
character of the *original* string was a word character (so `\b` holds at the
current position iff the current character's word-ness differs; since every
pattern starts with a word character, a match additionally requires
`prev = false`).  After a match the scan resumes after the matched region,
whose last character has the same word-ness as the pattern's last character
(ASCII case folding preserves word-ness).  The fuel argument is always called
with `s.length`, which suffices because every step consumes at least one
character. -/
def subWordFuel (pat repl : Str) : Nat → Bool → Str → Str
  | 0, _, s => s
  | _ + 1, _, [] => []
  | fuel + 1, prev, c :: rest =>
    if !pat.isEmpty && !prev && startsCI pat (c :: rest) &&
        boundaryOk (List.drop pat.length (c :: rest)) then
      repl ++ subWordFuel pat repl fuel (isWordChar (pat.getLastD '_'))
        (List.drop pat.length (c :: rest))
    else
      c :: subWordFuel pat repl fuel (isWordChar c) rest

/-- Model: `re.sub(r"\b<pat>\b", repl, s, flags=re.IGNORECASE)`. -/
def subWord (pat repl s : Str) : Str := subWordFuel pat repl s.length false s

/-- Apply a list of `(pattern, replacement)` word-substitutions in order
(Python `for wrong, right in mapping.items(): s = re.sub(...)`). -/
def applySubs (prs : List (Str × Str)) (s : Str) : Str :=
  prs.foldl (fun acc pr => subWord pr.1 pr.2 acc) s

theorem lowerS_drop (n : Nat) (s : Str) :
    lowerS (List.drop n s) = (lowerS s).drop n := by
  simp [lowerS, List.map_drop]

/-- With `prev = true` no match can start at the current position, so a
lower-case-letter prefix of the lowered string survives the substitution. -/
theorem startsB_lowerS_subWordFuel (pat repl : Str) :
    ∀ (fuel : Nat) (k s : Str), (∀ c ∈ k, isLowerAZ c = true) →
      startsB k (lowerS s) = true →
      startsB k (lowerS (subWordFuel pat repl fuel true s)) = true := by
  intro fuel
  induction fuel with
  | zero => intro k s _ h; simpa [subWordFuel] using h
  | succ fuel ih =>
    intro k s hk h
    cases s with
    | nil => simpa [subWordFuel] using h
    | cons c rest =>
      have hstep : subWordFuel pat repl (fuel + 1) true (c :: rest)
          = c :: subWordFuel pat repl fuel (isWordChar c) rest := by
        simp [subWordFuel]
      rw [hstep]
      cases k with
      | nil => rfl
      | cons k0 ktl =>
        have h' : (k0 == Char.toLower c) = true ∧
            startsB ktl (lowerS rest) = true := by
          simpa [lowerS, startsB, Bool.and_eq_true] using h
        have hk0 : isLowerAZ k0 = true := hk k0 (List.mem_cons_self _ _)
        have hw : isWordChar c = true :=
          isWordChar_of_toLower hk0 (beq_iff_eq.mp h'.1).symm
        rw [hw]
        have htail := ih ktl rest (fun c hc => hk c (List.mem_cons_of_mem _ hc))
          h'.2
        simpa [lowerS, startsB, h'.1] using htail

theorem take_app_exact {X Y : Str} {n : Nat} (h : X.length = n) :
    (X ++ Y).take n = X := by
  subst h; exact List.take_left X Y

theorem drop_app_exact {X Y : Str} {n : Nat} (h : X.length = n) :
    (X ++ Y).drop n = Y := by
  subst h; exact List.drop_left X Y

/-- Core preservation lemma: a nonempty all-lower-case-letter word `kw` that
does not occur (case-insensitively) in the pattern survives one
`\b`-bounded case-insensitive substitution pass.  An occurrence of `kw`
cannot lie inside a matched region (the pattern does not contain it), and it
cannot straddle a match edge (the character after a match is a non-word
character while `kw` consists of letters), so it is preserved verbatim. -/
theorem containsB_lowerS_subWordFuel (kw pat repl : Str) (hkw : kw ≠ [])
    (hl : ∀ c ∈ kw, isLowerAZ c = true)
    (hnp : containsB kw (lowerS pat) = false) :
    ∀ (fuel : Nat) (s : Str) (prev : Bool), containsB kw (lowerS s) = true →
      containsB kw (lowerS (subWordFuel pat repl fuel prev s)) = true := by
  intro fuel
  induction fuel with
  | zero => intro s prev h; simpa [subWordFuel] using h
  | succ fuel ih =>
    intro s prev h
    cases s with
    | nil => simpa [subWordFuel] using h
    | cons c rest =>
      by_cases hc : (!pat.isEmpty && !prev && startsCI pat (c :: rest) &&
          boundaryOk (List.drop pat.length (c :: rest))) = true
      · -- a match fires at this position
        have hstep : subWordFuel pat repl (fuel + 1) prev (c :: rest)
            = repl ++ subWordFuel pat repl fuel (isWordChar (pat.getLastD '_'))
                (List.drop pat.length (c :: rest)) := by
          simp [subWordFuel, hc]
        rw [hstep, lowerS_append]
        apply containsB_append_left
        apply ih
        rw [lowerS_drop]
        simp only [Bool.and_eq_true] at hc
        obtain ⟨⟨⟨hpe, _⟩, hsci⟩, hbd⟩ := hc
        rw [startsCI_eq] at hsci
        obtain ⟨a, b, hab⟩ := (containsB_iff _ _).mp h
        obtain ⟨t, hpt⟩ := (startsB_iff _ _).mp hsci
        have hnlen : (lowerS pat).length = pat.length := by simp [lowerS]
        have hLlen : (lowerS (c :: rest)).length
            = a.length + (kw.length + b.length) := by
          rw [← hab]; simp
        have hnL : pat.length ≤ (lowerS (c :: rest)).length := by
          rw [← hpt]; simp [hnlen]
        rcases le_or_lt pat.length a.length with hna | hna
        · -- the occurrence lies after the matched region
          apply (containsB_iff _ _).mpr
          refine ⟨a.drop pat.length, b, ?_⟩
          rw [← hab, List.append_assoc a kw b, List.drop_append_of_le_length hna]
          exact List.append_assoc _ _ _
        · rcases le_or_lt (a.length + kw.length) pat.length with hin | hin
          · -- the occurrence would lie inside the matched region:
            -- then kw occurs in the (lowered) pattern, contradiction
            exfalso
            have hble : pat.length - (a.length + kw.length) ≤ b.length := by
              omega
            have hXlen : ((a ++ kw) ++ b.take (pat.length - (a.length + kw.length))).length
                = pat.length := by
              simp only [List.length_append, List.length_take]
              omega
            have hsplitb : (((a ++ kw) ++ b.take (pat.length - (a.length + kw.length)))
                ++ b.drop (pat.length - (a.length + kw.length)))
                = lowerS (c :: rest) := by
              calc ((a ++ kw) ++ b.take (pat.length - (a.length + kw.length)))
                    ++ b.drop (pat.length - (a.length + kw.length))
                  = (a ++ kw) ++ (b.take (pat.length - (a.length + kw.length))
                      ++ b.drop (pat.length - (a.length + kw.length))) :=
                    List.append_assoc _ _ _
                _ = (a ++ kw) ++ b := by rw [List.take_append_drop]
                _ = lowerS (c :: rest) := hab
            have htake : (lowerS (c :: rest)).take pat.length
                = (a ++ kw) ++ b.take (pat.length - (a.length + kw.length)) := by
              rw [← hsplitb]; exact take_app_exact hXlen
            have htake2 : (lowerS (c :: rest)).take pat.length = lowerS pat := by
              rw [← hpt, ← hnlen, List.take_left]
            have : containsB kw (lowerS pat) = true := by
              apply (containsB_iff _ _).mpr
              exact ⟨a, b.take (pat.length - (a.length + kw.length)),
                by rw [← htake2, htake]⟩
            simp [this] at hnp
          · -- the occurrence would straddle the right edge of the match:
            -- the boundary character is both a non-word char and a letter
            exfalso
            have hm : pat.length - a.length < kw.length := by omega
            have hdropne : List.drop pat.length (c :: rest) ≠ [] := by
              apply List.ne_nil_of_length_pos
              have : (lowerS (c :: rest)).length = (c :: rest).length := by
                simp [lowerS]
              simp only [List.length_drop]
              omega
            obtain ⟨d, ds, hd⟩ := List.exists_cons_of_ne_nil hdropne
            have hbw : isWordChar d = false := by
              rw [hd] at hbd
              simpa [boundaryOk] using hbd
            have hL2 : (a ++ kw.take (pat.length - a.length))
                ++ (kw.drop (pat.length - a.length) ++ b)
                = lowerS (c :: rest) := by
              calc (a ++ kw.take (pat.length - a.length))
                    ++ (kw.drop (pat.length - a.length) ++ b)
                  = a ++ (kw.take (pat.length - a.length)
                      ++ (kw.drop (pat.length - a.length) ++ b)) :=
                    List.append_assoc _ _ _
                _ = a ++ ((kw.take (pat.length - a.length)
                      ++ kw.drop (pat.length - a.length)) ++ b) := by
                    rw [List.append_assoc]
                _ = a ++ (kw ++ b) := by rw [List.take_append_drop]
                _ = (a ++ kw) ++ b := (List.append_assoc _ _ _).symm
                _ = lowerS (c :: rest) := hab
            have hlen2 : (a ++ kw.take (pat.length - a.length)).length
                = pat.length := by
              simp only [List.length_append, List.length_take]
              omega
            have hdropL : (lowerS (c :: rest)).drop pat.length
                = kw.drop (pat.length - a.length) ++ b := by
              rw [← hL2]; exact drop_app_exact hlen2
            have hkdne : kw.drop (pat.length - a.length) ≠ [] := by
              apply List.ne_nil_of_length_pos
              simp only [List.length_drop]
              omega
            obtain ⟨e, ktl2, he⟩ := List.exists_cons_of_ne_nil hkdne
            have hemem : e ∈ kw := by
              have h1 : e ∈ kw.drop (pat.length - a.length) := by
                rw [he]; exact List.mem_cons_self _ _
              rw [← List.take_append_drop (pat.length - a.length) kw]
              exact List.mem_append_right _ h1
            have hdL : (lowerS (c :: rest)).drop pat.length
                = Char.toLower d :: lowerS ds := by
              rw [← lowerS_drop, hd]
              simp [lowerS]
            have hde : Char.toLower d = e := by
              rw [hdL, he] at hdropL
              simpa using congrArg (fun l => l.headD ' ') hdropL
            have := isWordChar_of_toLower (hl e hemem) hde
            simp [this] at hbw
      · -- no match at this position
        have hstep : subWordFuel pat repl (fuel + 1) prev (c :: rest)
            = c :: subWordFuel pat repl fuel (isWordChar c) rest := by
          simp only [subWordFuel, if_neg hc]
        rw [hstep]
        have h2 : (startsB kw (Char.toLower c :: lowerS rest)
            || containsB kw (lowerS rest)) = true := by
          simpa [containsB, lowerS] using h
        have h' : startsB kw (Char.toLower c :: lowerS rest) = true ∨
            containsB kw (lowerS rest) = true := by
          cases hq : startsB kw (Char.toLower c :: lowerS rest) with
          | true => exact Or.inl rfl
          | false => simp [hq] at h2; exact Or.inr h2
        rcases h' with hs | hrest
        · obtain ⟨k0, ktl, rfl⟩ := List.exists_cons_of_ne_nil hkw
          have hsp : (k0 == Char.toLower c) = true ∧
              startsB ktl (lowerS rest) = true := by
            simpa [startsB, Bool.and_eq_true] using hs
          have hw : isWordChar c = true :=
            isWordChar_of_toLower (hl k0 (List.mem_cons_self _ _))
              (beq_iff_eq.mp hsp.1).symm
          rw [hw]
          apply containsB_of_startsB
          have htail := startsB_lowerS_subWordFuel pat repl fuel ktl rest
            (fun x hx => hl x (List.mem_cons_of_mem _ hx)) hsp.2
          simpa [lowerS, startsB, hsp.1] using htail
        · have hrec := ih rest (isWordChar c) hrest
          simp only [lowerS, List.map_cons, containsB, Bool.or_eq_true]
          exact Or.inr hrec

theorem containsB_nil_left (s : Str) : containsB [] s = true := by
  cases s <;> simp [containsB, startsB]

/-- A word of lower-case letters survives stripping leading whitespace. -/
theorem containsB_lowerS_dropWhile (kw : Str)
    (hl : ∀ c ∈ kw, isLowerAZ c = true) :
    ∀ s : Str, containsB kw (lowerS s) = true →
      containsB kw (lowerS (s.dropWhile isPySpace)) = true := by
  intro s
  induction s with
  | nil => exact fun h => h
  | cons c rest ih =>
    intro h
    cases hsp : isPySpace c with
    | false => simpa [List.dropWhile_cons, hsp] using h
    | true =>
      rw [List.dropWhile_cons, hsp]
      simp only [if_true]
      apply ih
      cases kw with
      | nil => exact containsB_nil_left _
      | cons k0 ktl =>
        have h2 : (startsB (k0 :: ktl) (Char.toLower c :: lowerS rest)
            || containsB (k0 :: ktl) (lowerS rest)) = true := by
          simpa [containsB, lowerS] using h
        cases hq : startsB (k0 :: ktl) (Char.toLower c :: lowerS rest) with
        | false => simpa [hq] using h2
        | true =>
          exfalso
          simp only [startsB, Bool.and_eq_true, beq_iff_eq] at hq
          have hcl : Char.toLower c = c := toLower_of_isPySpace hsp
          have hns : isPySpace k0 = false :=
            not_isPySpace_of_isLowerAZ (hl k0 (List.mem_cons_self _ _))
          rw [hq.1, hcl, hsp] at hns
          exact Bool.true_eq_false.mp hns

/-- A nonempty word of lower-case letters survives Python `str.strip()`. -/
theorem containsB_lowerS_pyStrip (kw : Str)
    (hl : ∀ c ∈ kw, isLowerAZ c = true) (s : Str)
    (h : containsB kw (lowerS s) = true) :
    containsB kw (lowerS (pyStrip s)) = true := by
  have hlrev : ∀ c ∈ kw.reverse, isLowerAZ c = true := by
    intro c hc; exact hl c (List.mem_reverse.mp hc)
  have h1 := containsB_lowerS_dropWhile kw hl s h
  have h2 : containsB kw.reverse (lowerS (s.dropWhile isPySpace).reverse)
      = true := by
    rw [lowerS_reverse]
    exact containsB_reverse h1
  have h3 := containsB_lowerS_dropWhile kw.reverse hlrev
    (s.dropWhile isPySpace).reverse h2
  have h4 := containsB_reverse h3
  rw [List.reverse_reverse] at h4
  unfold pyStrip
  rw [lowerS_reverse]
  exact h4

namespace SqlValidator

/-- Model: `typo_mappings` of `app/tools/sql_validator.py::_normalize_table_typos`,
in dict insertion order. -/
def typo_mappings : List (Str × Str) := [
  ("json_admission".data, "json_admissions".data),
  ("json_admissionss".data, "json_admissions".data),
  ("json_patient".data, "json_patients".data),
  ("json_provider".data, "json_providers".data),
  ("json_transfer".data, "json_transfers".data),
  ("json_careunit".data, "json_careunits".data),
  ("json_labs".data, "json_lab".data),
  ("json_diagnosis".data, "json_diagnoses".data),
  ("json_insurances".data, "json_insurance".data)]

/-- Model: `_normalize_table_typos`: apply the typo substitutions (word-bounded,
case-insensitive) in order. -/
def normalize_table_typos (sql : Str) : Str := applySubs typo_mappings sql

/-- Model: `FORBIDDEN_KEYWORDS` of `app/tools/sql_validator.py` (source order). -/
def FORBIDDEN_KEYWORDS : List Str :=
  ["insert".data, "update".data, "delete".data, "drop".data, "alter".data,
   "create".data, "attach".data, "pragma".data, "vacuum".data,
   "truncate".data, "replace".data]

/-- Result dictionary of `validate_sql`: `{"is_valid": ..., "error": ...}`. -/
structure ValidationOutcome where
  is_valid : Bool
  error : Option Str

/-- The local `sql_lower = normalized_sql.strip().lower()` of `validate_sql`. -/
def sql_lower (sql : Str) : Str := lowerS (pyStrip (normalize_table_typos sql))

/-- The text sent to the datastore by `cursor.execute(f"EXPLAIN {normalized_sql}")`. -/
def explain_text (sql : Str) : Str :=
  "EXPLAIN ".data ++ normalize_table_typos sql

/-- The text sent by the bounded probe
`cursor.execute(f"SELECT 1 FROM ({normalized_sql}) LIMIT 1")`. -/
def probe_text (sql : Str) : Str :=
  "SELECT 1 FROM (".data ++ normalize_table_typos sql ++ ") LIMIT 1".data

/-- Model: `validate_sql(conn, sql)`.  The SQLite connection is abstracted as an
oracle `db` mapping the exact SQL text sent to `cursor.execute` to `none`
(success) or `some e` (a raised `sqlite3.Error` with message `e`); the
`try/except sqlite3.Error` around the EXPLAIN and probe executions is the
final `match`. -/
def validate_sql (db : Str → Option Str) (sql : Str) : ValidationOutcome :=
  if !(startsB "select".data (sql_lower sql)) then
    ⟨false, some "Only SELECT queries are allowed.".data⟩
  else if FORBIDDEN_KEYWORDS.any (fun kw => containsB kw (sql_lower sql)) then
    ⟨false, some "Forbidden SQL keywords detected.".data⟩
  else if containsB ";".data (sql_lower sql) then
    ⟨false, some "Multiple SQL statements are not allowed.".data⟩
  else if containsB " limit ".data (' ' :: (sql_lower sql ++ [' '])) &&
      !(containsB " order by ".data (sql_lower sql)) then
    ⟨false, some "LIMIT without ORDER BY is not allowed.".data⟩
  else
    match db (explain_text sql) with
    | some e => ⟨false, some e⟩
    | none =>
      match db (probe_text sql) with
      | some e => ⟨false, some e⟩
      | none => ⟨true, none⟩

end SqlValidator

/-- A SQLite oracle that accepts everything (models a live connection on
which the probed statements are well-formed for the current schema). -/
def dbOk : Str → Option Str := fun _ => none

/-- Keyword preservation lifted to a list of substitution passes. -/
theorem containsB_lowerS_applySubs (kw : Str) (hkw : kw ≠ [])
    (hl : ∀ c ∈ kw, isLowerAZ c = true) :
    ∀ (prs : List (Str × Str)) (s : Str),
      (∀ pr ∈ prs, containsB kw (lowerS pr.1) = false) →
      containsB kw (lowerS s) = true →
      containsB kw (lowerS (applySubs prs s)) = true := by
  intro prs
  induction prs with
  | nil => intro s _ h; simpa [applySubs] using h
  | cons pr rest ih =>
    intro s hnp h
    have hstep : applySubs (pr :: rest) s
        = applySubs rest (subWord pr.1 pr.2 s) := rfl
    rw [hstep]
    apply ih
    · intro q hq; exact hnp q (List.mem_cons_of_mem _ hq)
    · exact containsB_lowerS_subWordFuel kw pr.1 pr.2 hkw hl
        (hnp pr (List.mem_cons_self _ _)) s.length s false h

/-- Facts about the forbidden keywords needed for preservation: each is a
nonempty word of lower-case letters and occurs in no typo pattern. -/
theorem forbidden_kw_facts :
    ∀ kw ∈ SqlValidator.FORBIDDEN_KEYWORDS, kw ≠ [] ∧
      (∀ c ∈ kw, isLowerAZ c = true) ∧
      (∀ pr ∈ SqlValidator.typo_mappings, containsB kw (lowerS pr.1) = false) := by
  decide

/-- C1: for every statement that contains any keyword of the fixed forbidden
set (INSERT, UPDATE, DELETE, DROP, ALTER, CREATE, TRUNCATE, REPLACE, ATTACH,
PRAGMA, VACUUM) as a case-insensitive substring anywhere — including inside
subqueries — `validate_sql` returns an outcome with `is_valid = false`, for
every behaviour of the datastore. -/
theorem c1_forbidden_keyword_blocks (db : Str → Option Str) (sql kw : Str)
    (hmem : kw ∈ SqlValidator.FORBIDDEN_KEYWORDS)
    (hcont : containsB kw (lowerS sql) = true) :
    (SqlValidator.validate_sql db sql).is_valid = false := by
  obtain ⟨hkw, hl, hnp⟩ := forbidden_kw_facts kw hmem
  have h1 : containsB kw (lowerS (SqlValidator.normalize_table_typos sql))
      = true :=
    containsB_lowerS_applySubs kw hkw hl SqlValidator.typo_mappings sql hnp
      hcont
  have h2 : containsB kw (SqlValidator.sql_lower sql) = true :=
    containsB_lowerS_pyStrip kw hl _ h1
  unfold SqlValidator.validate_sql
  cases hsel : startsB "select".data (SqlValidator.sql_lower sql) with
  | false => simp [hsel]
  | true =>
    have hany : SqlValidator.FORBIDDEN_KEYWORDS.any
        (fun k => containsB k (SqlValidator.sql_lower sql)) = true :=
      List.any_eq_true.mpr ⟨kw, hmem, h2⟩
    simp [hsel, hany]

theorem c1_witness :
    ("drop".data ∈ SqlValidator.FORBIDDEN_KEYWORDS) ∧
      (SqlValidator.validate_sql dbOk
        "SELECT name FROM t WHERE x IN (SELECT y FROM u); DROP TABLE json_patients".data).is_valid
        = false :=
  ⟨by decide,
    c1_forbidden_keyword_blocks dbOk _ "drop".data (by decide) (by decide)⟩

set_option maxHeartbeats 1000000 in
/-- C6: `validate_sql` is a total function of its inputs (all `sqlite3.Error`
raises are caught and turned into outcomes), and the outcome is structured:
`error` carries a message exactly when `is_valid` is false. -/
theorem c6_validator_total_structured (db : Str → Option Str) (sql : Str) :
    ((SqlValidator.validate_sql db sql).is_valid = false
      ↔ ((SqlValidator.validate_sql db sql).error).isSome = true) := by
  unfold SqlValidator.validate_sql
  repeat' split <;> try simp

/-- Claim-side reading (following the spec wording, for comparison with the
source): a statement "contains a LIMIT clause" when its whitespace-separated
tokens include `limit`, case-insensitively. -/
def specHasLimitClause (sql : Str) : Bool :=
  ((lowerS sql).splitOnP isPySpace).any (fun t => t == "limit".data)

/-- Claim-side reading: a statement "contains an ORDER BY clause" when the
tokens `order` `by` appear adjacently (case-insensitively). -/
def specHasOrderByClause (sql : Str) : Bool :=
  let toks := ((lowerS sql).splitOnP isPySpace).filter (fun t => !t.isEmpty)
  (toks.zip toks.tail).any
    (fun pr => pr.1 == "order".data && pr.2 == "by".data)

/-- A statement whose LIMIT clause is delimited by a tab instead of a space:
real SQLite accepts it, so the accepting oracle models the live datastore. -/
def c5sql : Str := "select subject_id from json_patients limit\t5".data

/-- C5 counterexample: `c5sql` contains a LIMIT clause and no ORDER BY
clause, yet `validate_sql` (with the datastore accepting the statement, as
SQLite does) returns `is_valid = true`, because the code only detects
`" limit "` delimited by space characters. -/
theorem c5_counterexample :
    specHasLimitClause c5sql = true ∧ specHasOrderByClause c5sql = false ∧
      (SqlValidator.validate_sql dbOk c5sql).is_valid = true := by
  refine ⟨by decide, by decide, by decide⟩

/-- C5 (amended): the rule as the code enforces it.  (1) When `" limit "`
occurs space-delimited in the space-padded lowered statement and
`" order by "` does not occur, the statement is invalid regardless of the
datastore.  (2) A statement that passes the SELECT / forbidden-keyword /
semicolon checks, contains `" order by "`, and is accepted by the
datastore's EXPLAIN and probe executions — in particular the same statement
with a space-delimited ORDER BY on a valid column added — is valid. -/
theorem c5_limit_order_policy :
    (∀ (db : Str → Option Str) (sql : Str),
      containsB " limit ".data (' ' :: (SqlValidator.sql_lower sql ++ [' '])) = true →
      containsB " order by ".data (SqlValidator.sql_lower sql) = false →
      (SqlValidator.validate_sql db sql).is_valid = false) ∧
    (∀ (db : Str → Option Str) (sql : Str),
      startsB "select".data (SqlValidator.sql_lower sql) = true →
      SqlValidator.FORBIDDEN_KEYWORDS.any
        (fun kw => containsB kw (SqlValidator.sql_lower sql)) = false →
      containsB ";".data (SqlValidator.sql_lower sql) = false →
      containsB " order by ".data (SqlValidator.sql_lower sql) = true →
      db (SqlValidator.explain_text sql) = none →
      db (SqlValidator.probe_text sql) = none →
      (SqlValidator.validate_sql db sql).is_valid = true) := by
  constructor
  · intro db sql hlim hord
    unfold SqlValidator.validate_sql
    cases hsel : startsB "select".data (SqlValidator.sql_lower sql) with
    | false => simp [hsel]
    | true =>
      cases hfk : SqlValidator.FORBIDDEN_KEYWORDS.any
          (fun kw => containsB kw (SqlValidator.sql_lower sql)) with
      | true => simp [hsel, hfk]
      | false =>
        cases hsc : containsB ";".data (SqlValidator.sql_lower sql) with
        | true => simp [hsel, hfk, hsc]
        | false => simp [hsel, hfk, hsc, hlim, hord]
  · intro db sql hsel hfk hsc hord hex hpr
    unfold SqlValidator.validate_sql
    simp [hsel, hfk, hsc, hord, hex, hpr]

theorem c5_witness :
    (SqlValidator.validate_sql dbOk
      "select subject_id from json_patients limit 5".data).is_valid = false ∧
    (SqlValidator.validate_sql dbOk
      "select subject_id from json_patients order by subject_id limit 5".data).is_valid
      = true :=
  ⟨c5_limit_order_policy.1 dbOk _ (by decide) (by decide),
   c5_limit_order_policy.2 dbOk _ (by decide) (by decide) (by decide)
     (by decide) rfl rfl⟩

/-- The single-quote character (code 39). -/
def squote : Char := Char.ofNat 39

namespace TableAllowlist

/-- Default allowed tables of `_load_from_config` (no `ALLOWED_TABLES`
environment override configured, as in the shipped deployment). -/
def allowed_tables : List Str :=
  ["json_patients".data, "json_admissions".data, "json_providers".data,
   "json_transfers".data, "json_lab".data, "json_diagnoses".data,
   "json_insurance".data, "json_careunits".data]

/-- Model: `_generic_to_canonical` (insertion order). -/
def generic_to_canonical : List (Str × Str) := [
  ("patients".data, "json_patients".data),
  ("patient".data, "json_patients".data),
  ("admissions".data, "json_admissions".data),
  ("admission".data, "json_admissions".data),
  ("providers".data, "json_providers".data),
  ("provider".data, "json_providers".data),
  ("transfers".data, "json_transfers".data),
  ("transfer".data, "json_transfers".data),
  ("lab".data, "json_lab".data),
  ("labs".data, "json_lab".data),
  ("diagnoses".data, "json_diagnoses".data),
  ("diagnosis".data, "json_diagnoses".data),
  ("insurance".data, "json_insurance".data),
  ("careunits".data, "json_careunits".data),
  ("careunit".data, "json_careunits".data)]

/-- Model: `_typo_to_canonical` (insertion order). -/
def typo_to_canonical : List (Str × Str) := [
  ("json_admission".data, "json_admissions".data),
  ("json_admissionss".data, "json_admissions".data),
  ("json_patientss".data, "json_patients".data),
  ("json_patient".data, "json_patients".data),
  ("json_provider".data, "json_providers".data),
  ("json_transfer".data, "json_transfers".data),
  ("json_careunit".data, "json_careunits".data),
  ("json_labs".data, "json_lab".data),
  ("json_diagnosis".data, "json_diagnoses".data),
  ("json_insurances".data, "json_insurance".data)]

/-- Python `d.get(k, k)` over an association list. -/
def lookupD (m : List (Str × Str)) (k : Str) : Str :=
  match m.find? (fun pr => pr.1 == k) with
  | some pr => pr.2
  | none => k

/-- The name normalization performed inside `is_table_allowed`:
`table_name.strip().strip('"').strip("'").lower()`, then the typo map, then
the generic-alias map. -/
def normalize_name (table_name : Str) : Str :=
  lookupD generic_to_canonical
    (lookupD typo_to_canonical
      (lowerS (stripChar squote (stripChar '"' (pyStrip table_name)))))

/-- Model: `is_table_allowed` (without the blocked-operations logging side effect,
which never influences the returned value). -/
def is_table_allowed (table_name : Str) : Bool :=
  allowed_tables.contains (normalize_name table_name)

/-- One capture attempt of the pattern `<KEY>\s+(\w+)` at the start of `s`:
returns the captured word and the remainder after the whole match. -/
def matchKeyCapture (key : Str) (s : Str) : Option (Str × Str) :=
  if startsB key s then
    let afterKey := s.drop key.length
    let ws := afterKey.takeWhile isPySpace
    if ws.isEmpty then none
    else
      let afterWs := afterKey.drop ws.length
      let cap := afterWs.takeWhile isWordChar
      if cap.isEmpty then none else some (cap, afterWs.drop cap.length)
  else none

/-- Model: `re.findall(r"<KEY>\s+(\w+)", s)`: scan left to right, collecting
non-overlapping matches.  Fuel is always the string length, which suffices
because each step consumes at least one character. -/
def findCapturesFuel (key : Str) : Nat → Str → List Str
  | 0, _ => []
  | _ + 1, [] => []
  | fuel + 1, c :: rest =>
    match matchKeyCapture key (c :: rest) with
    | some (cap, after) => cap :: findCapturesFuel key fuel after
    | none => findCapturesFuel key fuel rest

def findCaptures (key s : Str) : List Str := findCapturesFuel key s.length s

/-- The five scan keywords of `_extract_tables_from_sql`. -/
def table_patterns : List Str :=
  ["FROM".data, "JOIN".data, "UPDATE".data, "INTO".data, "TABLE".data]

/-- Model: `_extract_tables_from_sql`: scan the upper-cased statement with each
pattern.  Python collects the matches into a `set`; we keep first-occurrence
order, and no theorem below depends on the order of a multi-element result. -/
def extract_tables_from_sql (sql : Str) : List Str :=
  (table_patterns.foldl
    (fun acc k => acc ++ findCaptures k (upperS sql)) []).eraseDups

/-- Model: `validate_sql_tables`: `(is_valid, allowed_tables, blocked_tables)`. -/
def validate_sql_tables (sql : Str) : Bool × List Str × List Str :=
  let tables := extract_tables_from_sql sql
  let allowed := tables.filter (fun t => is_table_allowed t)
  let blocked := tables.filter (fun t => !is_table_allowed t)
  (blocked.isEmpty, allowed, blocked)

/-- Lexicographic (code-point) order on strings, as Python `sorted` uses. -/
def lexLe : Str → Str → Bool
  | [], _ => true
  | _ :: _, [] => false
  | a :: as, b :: bs => if a == b then lexLe as bs else decide (a < b)

def insertSorted (x : Str) : List Str → List Str
  | [] => [x]
  | y :: ys => if lexLe x y then x :: y :: ys else y :: insertSorted x ys

def sortStrs : List Str → List Str
  | [] => []
  | x :: xs => insertSorted x (sortStrs xs)

/-- Model: `get_allowed_tables`: the allowlist, sorted. -/
def get_allowed_tables : List Str := sortStrs allowed_tables

/-- Model: `", ".join(...)`-style joining. -/
def joinSep (sep : Str) : List Str → Str
  | [] => []
  | [x] => x
  | x :: y :: rest => x ++ sep ++ joinSep sep (y :: rest)

/-- Suggestion lookup of `TableAllowlistManager.validate_query`:
`_typo_to_canonical.get(n) or _generic_to_canonical.get(n)`. -/
def suggestionFor (t : Str) : Option Str :=
  let n := lowerS (stripChar squote (stripChar '"' (pyStrip t)))
  match typo_to_canonical.find? (fun pr => pr.1 == n) with
  | some pr => some pr.2
  | none =>
    match generic_to_canonical.find? (fun pr => pr.1 == n) with
    | some pr => some pr.2
    | none => none

/-- Model: `TableAllowlistManager.validate_query`: `(is_valid, error_message)`
(the returned `SecurityInfo` only reports observability state and is not
modelled). -/
def validate_query (sql : Str) : Bool × Str :=
  let r := validate_sql_tables sql
  if r.1 then (true, [])
  else
    let suggStrs := r.2.2.filterMap
      (fun t => (suggestionFor t).map (fun s => t ++ "→".data ++ s))
    let suggText : Str :=
      if suggStrs.isEmpty then []
      else " Suggestions: ".data ++ joinSep ", ".data suggStrs ++ ".".data
    (false, "Access denied to tables: ".data ++ joinSep ", ".data r.2.2
      ++ ". Allowed tables: ".data ++ joinSep ", ".data get_allowed_tables
      ++ ".".data ++ suggText)

/-- The table names the claim calls "known typo or alias" names: the keys of
the typo map and of the generic-alias map. -/
def known_table_names : List Str :=
  typo_to_canonical.map (fun pr => pr.1)
    ++ generic_to_canonical.map (fun pr => pr.1)

end TableAllowlist

/-- C8: the allowlist's normalization (typo map, then generic-alias map,
after quote-stripping and case folding) is idempotent on every known typo or
alias table name. -/
theorem c8_normalize_idempotent (x : Str)
    (hx : x ∈ TableAllowlist.known_table_names) :
    TableAllowlist.normalize_name (TableAllowlist.normalize_name x)
      = TableAllowlist.normalize_name x := by
  have hall : TableAllowlist.known_table_names.all
      (fun t => TableAllowlist.normalize_name (TableAllowlist.normalize_name t)
        == TableAllowlist.normalize_name t) = true := by decide
  exact eq_of_beq (List.all_eq_true.mp hall x hx)

theorem c8_witness :
    ("admission".data ∈ TableAllowlist.known_table_names) ∧
      TableAllowlist.normalize_name
          (TableAllowlist.normalize_name "admission".data)
        = TableAllowlist.normalize_name "admission".data :=
  ⟨by decide, c8_normalize_idempotent "admission".data (by decide)⟩

namespace SqlExecutor

/-- Model: `FORBIDDEN` of `app/tools/sql_executor.py` — note: unlike the
Validator's list it has no `truncate` and no `replace`. -/
def FORBIDDEN : List Str :=
  ["insert".data, "update".data, "delete".data, "drop".data, "alter".data,
   "create".data, "attach".data, "pragma".data, "vacuum".data]

/-- Model: `is_safe_select`. -/
def is_safe_select (sql : Str) : Bool :=
  startsB "select".data (lowerS (pyStrip sql)) &&
    !(FORBIDDEN.any (fun w => containsB w (lowerS (pyStrip sql))))

/-- The `normalizations` dict of `execute_sql` (insertion order); the last
pair rewrites the *column* name `json_insurance` to `insurance`. -/
def normalizations : List (Str × Str) := [
  ("json_admissionss".data, "json_admissions".data),
  ("json_admission".data, "json_admissions".data),
  ("json_patientss".data, "json_patients".data),
  ("json_patient".data, "json_patients".data),
  ("json_provider".data, "json_providers".data),
  ("json_transfer".data, "json_transfers".data),
  ("json_careunit".data, "json_careunits".data),
  ("json_labs".data, "json_lab".data),
  ("json_diagnosis".data, "json_diagnoses".data),
  ("json_insurances".data, "json_insurance".data),
  ("json_insurance".data, "insurance".data)]

/-- The defensive rewrite loop inside `execute_sql` (word-bounded,
case-insensitive, applied in dict order; its `try/except` wrapper can never
fire for pure string work). -/
def normalize_for_exec (sql : Str) : Str := applySubs normalizations sql

/-- Model: `execute_sql(conn, sql)`.  The datastore is the oracle `dbx`, mapping
the SQL text actually executed to either rows-and-metadata (abstract type
`R`) or a raised error; the `ValueError` raised by the pre-flight guard is
the `.error` case before `dbx` is ever consulted. -/
def execute_sql {R : Type} (dbx : Str → Except Str R) (sql : Str) :
    Except Str R :=
  if !(is_safe_select sql) then
    .error "Only safe SELECT queries are allowed.".data
  else
    dbx (normalize_for_exec sql)

end SqlExecutor

/-- A statement the Validator rejects (it contains `replace`) but the
executor's pre-flight accepts: SQLite's `replace(x, y, z)` string function. -/
def c2sql : Str := "select replace(name, x, y) from json_patients".data

/-- C2 counterexample: `c2sql` is rejected by the Validator as not read-only
(forbidden keyword `replace`), yet `execute_sql` does not raise: it hands the
statement to the datastore, because the executor's own `FORBIDDEN` tuple
omits `truncate` and `replace`. -/
theorem c2_counterexample :
    (SqlValidator.validate_sql dbOk c2sql).is_valid = false ∧
      SqlExecutor.is_safe_select c2sql = true ∧
      SqlExecutor.execute_sql (fun _ => (.ok 0 : Except Str Nat)) c2sql
        = .ok 0 := by
  refine ⟨by decide, by decide, by rfl⟩

/-- Lower-case-letter facts for the executor's keyword list. -/
theorem exec_kw_facts :
    ∀ kw ∈ SqlExecutor.FORBIDDEN, ∀ c ∈ kw, isLowerAZ c = true := by
  decide

/-- C2 (amended): `execute_sql` raises before consulting the datastore
exactly on its own guard: statements that do not start with SELECT
(case-insensitively, after stripping) or contain one of the executor's nine
forbidden keywords (`insert, update, delete, drop, alter, create, attach,
pragma, vacuum` — a strict subset of the Validator's set, without `truncate`
and `replace`). -/
theorem c2_exec_guard {R : Type} (dbx : Str → Except Str R) (sql : Str)
    (h : startsB "select".data (lowerS (pyStrip sql)) = false ∨
      ∃ kw ∈ SqlExecutor.FORBIDDEN, containsB kw (lowerS sql) = true) :
    SqlExecutor.execute_sql dbx sql
      = .error "Only safe SELECT queries are allowed.".data := by
  have hsafe : SqlExecutor.is_safe_select sql = false := by
    rcases h with h | ⟨kw, hkw, hc⟩
    · simp [SqlExecutor.is_safe_select, h]
    · have h2 := containsB_lowerS_pyStrip kw (exec_kw_facts kw hkw) sql hc
      have hany : SqlExecutor.FORBIDDEN.any
          (fun w => containsB w (lowerS (pyStrip sql))) = true :=
        List.any_eq_true.mpr ⟨kw, hkw, h2⟩
      simp [SqlExecutor.is_safe_select, hany]
  simp [SqlExecutor.execute_sql, hsafe]

theorem c2_witness :
    ("vacuum".data ∈ SqlExecutor.FORBIDDEN) ∧
      SqlExecutor.execute_sql (fun _ => (.ok 0 : Except Str Nat))
          "select x from json_patients where note = vacuum_state".data
        = .error "Only safe SELECT queries are allowed.".data :=
  ⟨by decide,
    c2_exec_guard _ _ (Or.inr ⟨"vacuum".data, by decide, by decide⟩)⟩

/-- A validated, allowlisted statement over the canonical table
`json_insurance`. -/
def c10sql : Str := "SELECT * FROM json_insurance".data

/-- C10: `execute_sql` does not execute its argument verbatim.  The rewrite
maps typo forms to canonical names case-insensitively, and maps every
word-bounded occurrence of `json_insurance` to the bare identifier
`insurance`; so `c10sql`, which passes the executor pre-flight, the
Validator, and the allowlist, reaches the datastore as a different
statement. -/
theorem c10_exec_rewrite :
    SqlExecutor.normalize_for_exec c10sql = "SELECT * FROM insurance".data ∧
      SqlExecutor.normalize_for_exec
          "select a from json_insurances join JSON_INSURANCE".data
        = "select a from insurance join insurance".data ∧
      SqlExecutor.normalize_for_exec "select x from JSON_ADMISSION".data
        = "select x from json_admissions".data ∧
      SqlExecutor.is_safe_select c10sql = true ∧
      (SqlValidator.validate_sql dbOk c10sql).is_valid = true ∧
      (TableAllowlist.validate_query c10sql).1 = true ∧
      SqlExecutor.execute_sql (fun t => (.ok t : Except Str Str)) c10sql
        = .ok "SELECT * FROM insurance".data ∧
      SqlExecutor.normalize_for_exec c10sql ≠ c10sql := by
  exact ⟨by decide, by decide, by decide, by decide, by decide, by decide,
    by rfl, by decide⟩

/-- Python `s.replace(pat, repl)`: case-sensitive, all non-overlapping
occurrences, scanning left to right.  Fuel is the string length (sufficient:
each step consumes at least one character). -/
def replaceFuel (pat repl : Str) : Nat → Str → Str
  | 0, s => s
  | _ + 1, [] => []
  | fuel + 1, c :: rest =>
    if !pat.isEmpty && startsB pat (c :: rest) then
      repl ++ replaceFuel pat repl fuel (List.drop pat.length (c :: rest))
    else
      c :: replaceFuel pat repl fuel rest

def pyReplace (pat repl s : Str) : Str := replaceFuel pat repl s.length s

/-- Model: `for wrong, right in mapping.items(): s = s.replace(wrong, right)`. -/
def applyRepls (prs : List (Str × Str)) (s : Str) : Str :=
  prs.foldl (fun acc pr => pyReplace pr.1 pr.2 acc) s

/-- The agent-boundary result of `generate_sql_with_agent`: `success` and the
extracted SQL (`result["sql"]`).  A completion-backend failure surfaces here
as `success = false` (the base agent catches every exception). -/
structure GenResult where
  success : Bool
  sql : Str

/-- Model: `ValidationStatus` of `app/models/query_models.py`. -/
inductive ValidationStatus where
  | PASSED
  | FAILED
  | BLOCKED_DATA_MODIFICATION
deriving DecidableEq

/-- Model: `meta.validation` of the response envelope. -/
structure ValidationInfo where
  is_valid : Bool
  error : Option Str
  sql_safety : ValidationStatus
  retried : Bool
deriving DecidableEq

/-- The pipeline response fields the claims speak about, plus `promptsSent`:
the question texts passed to `generate_sql_with_agent`, in call order
(bookkeeping for "the generator is (not) invoked"). -/
structure QueryResponse where
  sql : Str
  answer : Str
  success : Bool
  error : Option Str
  validation : ValidationInfo
  promptsSent : List Str
deriving DecidableEq

namespace MainPipeline

/-- Model: `modification_intent` of `run_query_pipeline` — the pre-generation
guard's phrase list (all phrases are Turkish). -/
def modification_intent : List Str :=
  ["sil".data, "silmek".data, "silme".data, "güncelle".data,
   "güncellemek".data, "ekle".data, "eklemek".data, "değiştir".data,
   "değiştirmek".data, "kaldır".data, "kaldırmak".data, "temizle".data,
   "temizlemek".data]

/-- Model: `_normalize_sql_table_names` mappings (dict insertion order):
word-bounded, case-insensitive. -/
def sql_table_mappings : List (Str × Str) := [
  ("json_admissionss".data, "json_admissions".data),
  ("json_admission".data, "json_admissions".data),
  ("json_patient".data, "json_patients".data),
  ("json_provider".data, "json_providers".data),
  ("json_transfer".data, "json_transfers".data),
  ("json_careunit".data, "json_careunits".data),
  ("json_labs".data, "json_lab".data),
  ("json_diagnosis".data, "json_diagnoses".data),
  ("json_insurances".data, "json_insurance".data),
  ("admissions".data, "json_admissions".data),
  ("patients".data, "json_patients".data),
  ("providers".data, "json_providers".data),
  ("transfers".data, "json_transfers".data),
  ("careunits".data, "json_careunits".data),
  ("diagnoses".data, "json_diagnoses".data),
  ("insurance".data, "json_insurance".data),
  ("lab".data, "json_lab".data)]

/-- Model: `_normalize_sql_table_names` (the `if not sql: return sql` early exit
coincides with the substitutions acting as identity on the empty string). -/
def normalize_sql_table_names (sql : Str) : Str :=
  applySubs sql_table_mappings sql

/-- The `typo_normalizations` dict applied with plain case-sensitive
`str.replace` before the allowlist check (including the
`json_insurance → insurance` column rewrite). -/
def typo_normalizations : List (Str × Str) := [
  ("json_admissionss".data, "json_admissions".data),
  ("json_admission".data, "json_admissions".data),
  ("json_patientss".data, "json_patients".data),
  ("json_patient".data, "json_patients".data),
  ("json_provider".data, "json_providers".data),
  ("json_transfer".data, "json_transfers".data),
  ("json_careunit".data, "json_careunits".data),
  ("json_labs".data, "json_lab".data),
  ("json_diagnosis".data, "json_diagnoses".data),
  ("json_insurances".data, "json_insurance".data),
  ("json_insurance".data, "insurance".data)]

/-- The SQL after generation and the first defensive normalization
(`sql = _normalize_sql_table_names(sql)`; a failed generation yields `""`). -/
def first_sql (gen : Str → GenResult) (question : Str) : Str :=
  normalize_sql_table_names
    (if (gen question).success then (gen question).sql else [])

/-- The SQL the allowlist and the validator see: `first_sql` after the
case-sensitive `typo_normalizations` replace loop. -/
def checked_sql (gen : Str → GenResult) (question : Str) : Str :=
  applyRepls typo_normalizations (first_sql gen question)

/-- The guidance note appended to the question for the one-time retry. -/
def retry_note : Str :=
  "\nNote: Generate a single SELECT statement, do not use semicolons, use appropriate column and table names from the current schema.".data

/-- Model: `retry_question`: original question, the note, and the validator's
error text. -/
def retry_question (question : Str) (verr : Option Str) : Str :=
  question ++ retry_note ++ "\nValidator error: ".data ++ verr.getD []

/-- The SQL produced by the retry attempt (normalized again; a failed retry
generation yields `""`).  Note the `typo_normalizations` replace loop and the
allowlist check are *not* re-run on it. -/
def retry_sql (gen : Str → GenResult) (db : Str → Option Str)
    (question : Str) : Str :=
  if (gen (retry_question question
      (SqlValidator.validate_sql db (checked_sql gen question)).error)).success
  then
    normalize_sql_table_names
      (gen (retry_question question
        (SqlValidator.validate_sql db (checked_sql gen question)).error)).sql
  else []

/-- The intent-blocked terminal response (note `is_valid = True` in the
source's `ValidationInfo` here). -/
def intent_blocked_response : QueryResponse :=
  { sql := "SELECT ".data ++ [squote] ++ "DATA MODIFICATION NOT ALLOWED".data
      ++ [squote] ++ " AS message".data,
    answer := "This operation is not allowed. You can only perform data reading operations.".data,
    success := false,
    error := some "Data modification blocked".data,
    validation := ⟨true, none, .BLOCKED_DATA_MODIFICATION, false⟩,
    promptsSent := [] }

/-- The hard SELECT-only guard response. -/
def select_guard_response (sql : Str) (prompts : List Str) : QueryResponse :=
  { sql := sql,
    answer := "Access denied: Only SELECT queries are allowed.".data,
    success := false,
    error := some "Only SELECT queries are allowed.".data,
    validation := ⟨false, some "Only SELECT queries are allowed.".data,
      .FAILED, false⟩,
    promptsSent := prompts }

/-- The allowlist-blocked terminal response (no retry happens here). -/
def security_blocked_response (sql msg : Str) (prompts : List Str) :
    QueryResponse :=
  { sql := sql, answer := "Access denied: ".data ++ msg, success := false,
    error := some msg, validation := ⟨false, some msg, .FAILED, false⟩,
    promptsSent := prompts }

/-- The terminal response when the retry's validation also fails. -/
def failed_validation_response (sql : Str) (verr : Option Str)
    (prompts : List Str) : QueryResponse :=
  { sql := sql, answer := [], success := false,
    error := some "SQL validation failed".data,
    validation := ⟨false, verr, .FAILED, true⟩,
    promptsSent := prompts }

/-- The outer `except Exception` handler's response (covers the executor's
pre-flight `ValueError` and datastore errors during execution). -/
def exception_response (e : Str) (prompts : List Str) : QueryResponse :=
  { sql := [], answer := "An error occurred: ".data ++ e, success := false,
    error := some e, validation := ⟨false, some e, .FAILED, false⟩,
    promptsSent := prompts }

/-- The successful response (only the claim-relevant fields). -/
def success_response (sql answer : Str) (retried : Bool)
    (prompts : List Str) : QueryResponse :=
  { sql := sql, answer := answer, success := true, error := none,
    validation := ⟨true, none, .PASSED, retried⟩, promptsSent := prompts }

/-- The tail of the pipeline after validation succeeded: one more defensive
normalization, then `execute_sql` and the summarizer; errors land in the
outer handler. -/
def finish_execution {R : Type} (exec : Str → Except Str R)
    (summ : Str → R → Str) (question sql : Str) (retried : Bool)
    (prompts : List Str) : QueryResponse :=
  match SqlExecutor.execute_sql exec (normalize_sql_table_names sql) with
  | .error e => exception_response e prompts
  | .ok rows =>
      success_response (normalize_sql_table_names sql) (summ question rows)
        retried prompts

/-- Model: `run_query_pipeline`, flattened over the named step functions.  The
external boundaries are oracles: `gen` (the SQL agent over the completion
backend), `db` (the validator's connection), `exec` (the executor's
connection), `summ` (the answer summarizer).  Logging, tracing, history and
the metadata-only retrieval call on the success path are omitted — they do
not influence any modelled field. -/
def run_query_pipeline {R : Type} (gen : Str → GenResult)
    (db : Str → Option Str) (exec : Str → Except Str R)
    (summ : Str → R → Str) (question : Str) : QueryResponse :=
  if modification_intent.any (fun p => containsB p (lowerS question)) then
    intent_blocked_response
  else if !(startsB "select".data (lowerS (pyStrip (first_sql gen question))))
  then
    select_guard_response (first_sql gen question) [question]
  else if !(TableAllowlist.validate_query (checked_sql gen question)).1 then
    security_blocked_response (checked_sql gen question)
      (TableAllowlist.validate_query (checked_sql gen question)).2 [question]
  else if (SqlValidator.validate_sql db (checked_sql gen question)).is_valid
  then
    finish_execution exec summ question (checked_sql gen question) false
      [question]
  else if (SqlValidator.validate_sql db (retry_sql gen db question)).is_valid
  then
    finish_execution exec summ question (retry_sql gen db question) true
      [question, retry_question question
        (SqlValidator.validate_sql db (checked_sql gen question)).error]
  else
    failed_validation_response (retry_sql gen db question)
      (SqlValidator.validate_sql db (retry_sql gen db question)).error
      [question, retry_question question
        (SqlValidator.validate_sql db (checked_sql gen question)).error]

end MainPipeline

/-- A generator modelling a completely unavailable completion backend: the
agent layer converts every failure into `success = false`. -/
def genFail : Str → GenResult := fun _ => ⟨false, []⟩

/-- An executor oracle that is never reached in the blocked paths. -/
def execNone : Str → Except Str Unit := fun _ => .error "unreached".data

/-- A trivial summarizer oracle. -/
def summNone : Str → Unit → Str := fun _ _ => []

/-- The English scenario question of the claim. -/
def c3question : Str :=
  "Delete the patient table and then count patients".data

/-- C3 counterexample: the English question "Delete the patient table and
then count patients" matches none of the (Turkish-only) intent phrases, so
the pipeline does invoke the generator (`promptsSent = [question]`) and the
outcome is the ordinary `FAILED` status, not the blocked-modification
status. -/
theorem c3_counterexample :
    MainPipeline.modification_intent.any
        (fun p => containsB p (lowerS c3question)) = false ∧
      (MainPipeline.run_query_pipeline genFail dbOk execNone summNone
        c3question).promptsSent = [c3question] ∧
      (MainPipeline.run_query_pipeline genFail dbOk execNone summNone
        c3question).validation.sql_safety = ValidationStatus.FAILED := by
  refine ⟨by decide, by decide, by decide⟩

/-- C3 (amended): the pre-generation guard fires exactly on the Turkish
modification-intent phrases.  For every question whose (ASCII-)lowered text
contains one of them, the pipeline short-circuits to the blocked terminal
state: `success = false`, `sql_safety = BLOCKED_DATA_MODIFICATION`, and the
generator is never invoked. -/
theorem c3_turkish_intent_guard {R : Type} (gen : Str → GenResult)
    (db : Str → Option Str) (exec : Str → Except Str R)
    (summ : Str → R → Str) (question : Str)
    (h : ∃ p ∈ MainPipeline.modification_intent,
      containsB p (lowerS question) = true) :
    (MainPipeline.run_query_pipeline gen db exec summ question).success
        = false ∧
      (MainPipeline.run_query_pipeline gen db exec summ
        question).validation.sql_safety
        = ValidationStatus.BLOCKED_DATA_MODIFICATION ∧
      (MainPipeline.run_query_pipeline gen db exec summ
        question).promptsSent = [] := by
  have hi : MainPipeline.modification_intent.any
      (fun p => containsB p (lowerS question)) = true :=
    List.any_eq_true.mpr h
  refine ⟨?_, ?_, ?_⟩ <;>
    simp [MainPipeline.run_query_pipeline, hi,
      MainPipeline.intent_blocked_response]

theorem c3_witness :
    (MainPipeline.run_query_pipeline genFail dbOk execNone summNone
        "tabloyu sil ve hasta sayısını getir".data).success = false ∧
      (MainPipeline.run_query_pipeline genFail dbOk execNone summNone
        "tabloyu sil ve hasta sayısını getir".data).validation.sql_safety
        = ValidationStatus.BLOCKED_DATA_MODIFICATION ∧
      (MainPipeline.run_query_pipeline genFail dbOk execNone summNone
        "tabloyu sil ve hasta sayısını getir".data).promptsSent = [] :=
  c3_turkish_intent_guard genFail dbOk execNone summNone _
    ⟨"sil".data, by decide, by decide⟩

/-- A counting-category question (the spec's heuristic category list). -/
def c7question : Str := "How many patients are there?".data

/-- C7 counterexample: with the completion backend entirely unavailable, the
pipeline produces no SQL at all — there is no local heuristic fallback — and
the request surfaces as a failed response (`success = false`, empty `sql`,
the SELECT-only guard error). -/
theorem c7_counterexample :
    (MainPipeline.run_query_pipeline genFail dbOk execNone summNone
        c7question).success = false ∧
      (MainPipeline.run_query_pipeline genFail dbOk execNone summNone
        c7question).sql = [] ∧
      startsB "select".data (lowerS (MainPipeline.run_query_pipeline genFail
        dbOk execNone summNone c7question).sql) = false := by
  refine ⟨by decide, by decide, by decide⟩

/-- C7 (amended): when the backend fails on every prompt, the agent layer
reports `success = false`, the pipeline's SQL is empty, the SELECT-only
guard terminates the request with a well-formed error envelope (never an
unhandled exception), and the generator was consulted exactly once.  There
is no heuristic SQL fallback. -/
theorem c7_backend_failure_envelope {R : Type} (gen : Str → GenResult)
    (db : Str → Option Str) (exec : Str → Except Str R)
    (summ : Str → R → Str) (question : Str)
    (hgen : ∀ p, (gen p).success = false)
    (hint : MainPipeline.modification_intent.any
      (fun p => containsB p (lowerS question)) = false) :
    MainPipeline.run_query_pipeline gen db exec summ question
      = MainPipeline.select_guard_response [] [question] := by
  have hif : (if (gen question).success = true then (gen question).sql
      else ([] : Str)) = [] := by
    rw [hgen question]
    simp
  have h1 : MainPipeline.first_sql gen question = [] := by
    unfold MainPipeline.first_sql
    rw [hif]
    decide
  unfold MainPipeline.run_query_pipeline
  rw [hint, h1]
  rw [if_neg (by decide : ¬(false = true))]
  rw [if_pos (by decide :
    (!(startsB "select".data (lowerS (pyStrip ([] : Str))))) = true)]

theorem c7_witness :
    MainPipeline.run_query_pipeline genFail dbOk execNone summNone
        "How many admissions are there?".data
      = MainPipeline.select_guard_response []
          ["How many admissions are there?".data] :=
  c7_backend_failure_envelope genFail dbOk execNone summNone _
    (fun _ => rfl) (by decide)

/-- A generator producing SQL over a table the allowlist blocks. -/
def genBad : Str → GenResult :=
  fun _ => ⟨true, "SELECT * FROM unknown_tbl".data⟩

/-- A generator producing SQL the syntax validator rejects (semicolon),
on both the first attempt and the retry. -/
def genSemi : Str → GenResult :=
  fun _ => ⟨true, "SELECT count(x) FROM json_patients WHERE a = b; ".data⟩

def c4question : Str := "list the unknown table".data

/-- C4 counterexample: when the allowlist (security) check fails on the
first attempt, the orchestrator does *not* retry: the generator is invoked
exactly once and the response carries `retried = false`.  Moreover the
claim's example table name `admission` would not even be blocked — the
allowlist normalizes it to `json_admissions` and allows it. -/
theorem c4_counterexample :
    (MainPipeline.run_query_pipeline genBad dbOk execNone summNone
        c4question).validation.retried = false ∧
      (MainPipeline.run_query_pipeline genBad dbOk execNone summNone
        c4question).success = false ∧
      (MainPipeline.run_query_pipeline genBad dbOk execNone summNone
        c4question).promptsSent = [c4question] ∧
      TableAllowlist.is_table_allowed "admission".data = true := by
  refine ⟨by decide, by decide, by decide, by decide⟩

/-- C4 (amended): a security (allowlist) failure on the first attempt is
terminal — the pipeline returns the allowlist error with `retried = false`
and the generator is never re-invoked.  Only a failure of the *syntax*
validation triggers the single retry, whose prompt appends the validator's
error text to the original question; if the retry's validation also fails,
the terminal response carries `retried = true`. -/
theorem c4_no_security_retry {R : Type} (gen : Str → GenResult)
    (db : Str → Option Str) (exec : Str → Except Str R)
    (summ : Str → R → Str) (question : Str)
    (hint : MainPipeline.modification_intent.any
      (fun p => containsB p (lowerS question)) = false)
    (hsel : (!(startsB "select".data
      (lowerS (pyStrip (MainPipeline.first_sql gen question))))) = false) :
    ((TableAllowlist.validate_query (MainPipeline.checked_sql gen
        question)).1 = false →
      MainPipeline.run_query_pipeline gen db exec summ question
        = MainPipeline.security_blocked_response
            (MainPipeline.checked_sql gen question)
            (TableAllowlist.validate_query
              (MainPipeline.checked_sql gen question)).2 [question]) ∧
    ((TableAllowlist.validate_query (MainPipeline.checked_sql gen
        question)).1 = true →
      (SqlValidator.validate_sql db
        (MainPipeline.checked_sql gen question)).is_valid = false →
      (SqlValidator.validate_sql db
        (MainPipeline.retry_sql gen db question)).is_valid = false →
      MainPipeline.run_query_pipeline gen db exec summ question
        = MainPipeline.failed_validation_response
            (MainPipeline.retry_sql gen db question)
            (SqlValidator.validate_sql db
              (MainPipeline.retry_sql gen db question)).error
            [question, MainPipeline.retry_question question
              (SqlValidator.validate_sql db
                (MainPipeline.checked_sql gen question)).error]) := by
  constructor
  · intro hsec
    unfold MainPipeline.run_query_pipeline
    rw [hint, hsel, hsec]
    rw [if_neg (by decide : ¬(false = true))]
    rw [if_neg (by decide : ¬(false = true))]
    rw [if_pos (by decide : (!false) = true)]
  · intro hsec hv1 hv2
    unfold MainPipeline.run_query_pipeline
    rw [hint, hsel, hsec, hv1, hv2]
    rw [if_neg (by decide : ¬(false = true))]
    rw [if_neg (by decide : ¬(false = true))]
    rw [if_neg (by decide : ¬((!true) = true))]
    rw [if_neg (by decide : ¬(false = true))]
    rw [if_neg (by decide : ¬(false = true))]

theorem c4_witness :
    MainPipeline.run_query_pipeline genBad dbOk execNone summNone c4question
        = MainPipeline.security_blocked_response
            (MainPipeline.checked_sql genBad c4question)
            (TableAllowlist.validate_query
              (MainPipeline.checked_sql genBad c4question)).2 [c4question] ∧
      MainPipeline.run_query_pipeline genSemi dbOk execNone summNone
          c4question
        = MainPipeline.failed_validation_response
            (MainPipeline.retry_sql genSemi dbOk c4question)
            (SqlValidator.validate_sql dbOk
              (MainPipeline.retry_sql genSemi dbOk c4question)).error
            [c4question, MainPipeline.retry_question c4question
              (SqlValidator.validate_sql dbOk
                (MainPipeline.checked_sql genSemi c4question)).error] :=
  ⟨(c4_no_security_retry genBad dbOk execNone summNone c4question
      (by decide) (by decide)).1 (by decide),
   (c4_no_security_retry genSemi dbOk execNone summNone c4question
      (by decide) (by decide)).2 (by decide) (by decide) (by decide)⟩

/-- A schema document of `_build_schema_docs` (one per column or table
summary, built from live schema introspection, which is the external
boundary here). -/
structure SchemaDoc where
  table : Str
  column : Str
  text : Str
deriving DecidableEq

namespace SystemPrompt

/-- Model: `medical_keywords` of `get_relevant_schema_snippets` (source order). -/
def medical_keywords : List Str :=
  ["hasta".data, "patient".data, "yatış".data, "admission".data,
   "transfer".data, "doktor".data, "provider".data, "yaş".data, "age".data,
   "cinsiyet".data, "gender".data, "admittime".data, "dischtime".data,
   "careunit".data, "admission_type".data]

/-- The score of one document: the number of medical keywords occurring in
both the lowered question and the lowered document text. -/
def doc_score (question_lower : Str) (d : SchemaDoc) : Nat :=
  (medical_keywords.filter (fun kw =>
    containsB kw question_lower && containsB kw (lowerS d.text))).length

/-- Insert into a descending-sorted list, after all entries with a score
`≥` the new one — this makes the sort stable, like Python `list.sort`. -/
def insertByScore (x : Nat × SchemaDoc) :
    List (Nat × SchemaDoc) → List (Nat × SchemaDoc)
  | [] => [x]
  | y :: ys => if y.1 < x.1 then x :: y :: ys else y :: insertByScore x ys

/-- Model: `relevant_docs.sort(key=lambda x: x[0], reverse=True)` (stable). -/
def sortByScoreDesc (l : List (Nat × SchemaDoc)) : List (Nat × SchemaDoc) :=
  l.foldl (fun acc x => insertByScore x acc) []

/-- The `(score, doc)` pairs with positive score, in document order. -/
def scored_docs (docs : List SchemaDoc) (question : Str) :
    List (Nat × SchemaDoc) :=
  (docs.map (fun d => (doc_score (lowerS question) d, d))).filter
    (fun p => 0 < p.1)

/-- The selection logic of `get_relevant_schema_snippets`: positive-scoring
docs sorted by score descending, truncated to `top_k`; if none scored
positive, the first `top_k` docs in catalog order with score 0. -/
def select_relevant_docs (docs : List SchemaDoc) (question : Str)
    (top_k : Nat) : List (Nat × SchemaDoc) :=
  if ((sortByScoreDesc (scored_docs docs question)).take top_k).isEmpty then
    (docs.take top_k).map (fun d => ((0 : Nat), d))
  else
    (sortByScoreDesc (scored_docs docs question)).take top_k

/-- Model: `"Table: {t}, Column: {c}\n{text}"`. -/
def format_snippet (p : Nat × SchemaDoc) : Str :=
  "Table: ".data ++ p.2.table ++ ", Column: ".data ++ p.2.column
    ++ "\n".data ++ p.2.text

/-- Model: `get_relevant_schema_snippets` (keyword path), over the documents built
from the schema. -/
def get_relevant_schema_snippets (docs : List SchemaDoc) (question : Str)
    (top_k : Nat) : Str :=
  if docs.isEmpty then "No schema information available.".data
  else
    TableAllowlist.joinSep "\n\n".data
      ((select_relevant_docs docs question top_k).map format_snippet)

theorem length_insertByScore (x : Nat × SchemaDoc)
    (l : List (Nat × SchemaDoc)) :
    (insertByScore x l).length = l.length + 1 := by
  induction l with
  | nil => rfl
  | cons y ys ih =>
    unfold insertByScore
    by_cases h : y.1 < x.1
    · simp [h]
    · simp [h, ih]

theorem length_sortByScoreDesc (l : List (Nat × SchemaDoc)) :
    (sortByScoreDesc l).length = l.length := by
  have haux : ∀ (m : List (Nat × SchemaDoc)) (acc : List (Nat × SchemaDoc)),
      (m.foldl (fun acc x => insertByScore x acc) acc).length
        = acc.length + m.length := by
    intro m
    induction m with
    | nil => intro acc; simp
    | cons x xs ih =>
      intro acc
      simp only [List.foldl_cons, ih, length_insertByScore, List.length_cons]
      omega
  simpa [sortByScoreDesc] using haux l []

end SystemPrompt

/-- Two schema documents; only the first mentions a medical keyword that
also occurs in the question. -/
def c9docs : List SchemaDoc :=
  [⟨"json_patients".data, "subject_id".data,
      "patient subject identifier".data⟩,
   ⟨"json_lab".data, "lab_id".data, "laboratory measurements".data⟩]

def c9question : Str := "How many patient records exist?".data

/-- C9 counterexample: with two documents and `top_k = 2`, exactly one
document scores positive, and the keyword retrieval returns a single
snippet — fewer than `min(top_k, total snippets) = 2`.  (The
first-`top_k` fallback fires only when *no* document scores positive.) -/
theorem c9_counterexample :
    (SystemPrompt.select_relevant_docs c9docs c9question 2).length = 1 ∧
      min 2 c9docs.length = 2 := by
  refine ⟨by decide, by decide⟩

/-- C9 (amended): for a nonempty catalog and `top_k ≥ 1`, the keyword
retrieval returns between 1 and `min(top_k, total snippets)` snippets (and,
being a total function, never raises). -/
theorem c9_retrieval_bounds (docs : List SchemaDoc) (question : Str)
    (top_k : Nat) (hd : docs ≠ []) (hk : 1 ≤ top_k) :
    1 ≤ (SystemPrompt.select_relevant_docs docs question top_k).length ∧
      (SystemPrompt.select_relevant_docs docs question top_k).length
        ≤ min top_k docs.length := by
  have hdl : 1 ≤ docs.length := List.length_pos.mpr hd
  have hsc : (SystemPrompt.scored_docs docs question).length
      ≤ docs.length := by
    calc (SystemPrompt.scored_docs docs question).length
        ≤ (docs.map (fun d =>
            (SystemPrompt.doc_score (lowerS question) d, d))).length :=
          List.length_filter_le _ _
      _ = docs.length := List.length_map _ _
  unfold SystemPrompt.select_relevant_docs
  by_cases h : ((SystemPrompt.sortByScoreDesc
      (SystemPrompt.scored_docs docs question)).take top_k).isEmpty = true
  · rw [if_pos h]
    constructor
    · simp only [List.length_map, List.length_take]
      omega
    · simp only [List.length_map, List.length_take]
      exact le_refl _
  · rw [if_neg h]
    have hne : ((SystemPrompt.sortByScoreDesc
        (SystemPrompt.scored_docs docs question)).take top_k) ≠ [] := by
      intro hx
      rw [hx] at h
      exact h rfl
    have hpos := List.length_pos.mpr hne
    constructor
    · omega
    · simp only [List.length_take, SystemPrompt.length_sortByScoreDesc]
      have := min_le_min (le_refl top_k) hsc
      omega

theorem c9_witness :
    1 ≤ (SystemPrompt.select_relevant_docs c9docs c9question 2).length ∧
      (SystemPrompt.select_relevant_docs c9docs c9question 2).length
        ≤ min 2 c9docs.length :=
  c9_retrieval_bounds c9docs c9question 2 (by decide) (by decide)
